import Mathlib

/-!
Verification of the Excel reconciliation utility in `automation.py`.

The core of the program is `compare_excel_files(file1_path, file2_path,
output_path, match_columns)`: it loads two tables, builds a composite key
per row by joining the string forms of the match columns with `"_"`,
deduplicates each table on that key keeping the first occurrence, and then
walks the sorted union of keys, emitting one report row per differing
field (key in both tables), or one row per non-helper column (key in only
one table).  This file embeds that pipeline as pure Lean functions and
proves the specification claims about it.
-/

/-- A scalar cell value as the program sees it after loading a table:
a string, an integer, or a null/NaN marker. -/
inductive Val
  | vStr (s : String)
  | vInt (n : Int)
  | vNull
deriving DecidableEq, Repr

/-- Normalization used by the field differ (automation.py lines 108-113 and
131-134): `str(val)` when the cell is present and non-null, the sentinel
`"MISSING"` when the column is absent (`None`) or the cell is null/NaN. -/
def normVal : Option Val → String
  | some (Val.vStr s) => s
  | some (Val.vInt n) => toString n
  | _ => "MISSING"

/-- The `astype(str)` coercion used when building the composite key
(automation.py lines 55-56); pandas renders NaN as the string `"nan"`. -/
def astypeStr : Option Val → String
  | some (Val.vStr s) => s
  | some (Val.vInt n) => toString n
  | _ => "nan"

/-- One row of a table: an association of column names to cell values. -/
abbrev Rec := List (String × Val)

/-- A loaded table: its column names in order, and its rows. -/
structure Table where
  cols : List String
  rows : List Rec
deriving Repr

/-- The composite key of a row (automation.py lines 55-56):
`df[match_columns].astype(str).agg('_'.join, axis=1)`. -/
def compositeKey (K : List String) (r : Rec) : String :=
  String.intercalate "_" (K.map fun c => astypeStr (r.lookup c))

/-- Boolean lexicographic comparison of character lists, mirroring Python
string comparison by code point. -/
def charListLe : List Char → List Char → Bool
  | [], _ => true
  | _ :: _, [] => false
  | a :: as, b :: bs => if a < b then true else if b < a then false else charListLe as bs

/-- Boolean string comparison used to model Python `sorted` on strings. -/
def strLe (a b : String) : Bool := charListLe a.data b.data

/-- Insert a string into a list, keeping it sorted under `strLe`. -/
def insertStr (a : String) : List String → List String
  | [] => [a]
  | b :: l => if strLe a b then a :: b :: l else b :: insertStr a l

/-- Stable insertion sort on strings: the model of Python `sorted`. -/
def sortStr : List String → List String
  | [] => []
  | a :: l => insertStr a (sortStr l)

/-- Deduplication of a table's rows on the composite key, keeping the first
occurrence (automation.py lines 69-70, `drop_duplicates(keep='first')`);
`seen` holds the keys met so far. -/
def dropDupKeysAux (K : List String) (seen : List String) : List Rec → List Rec
  | [] => []
  | r :: rs =>
    if compositeKey K r ∈ seen then dropDupKeysAux K seen rs
    else r :: dropDupKeysAux K (compositeKey K r :: seen) rs

/-- Rows of a table after in-order first-occurrence deduplication on the
composite key. -/
def dropDupKeys (K : List String) (rows : List Rec) : List Rec :=
  dropDupKeysAux K [] rows

/-- The count of rows flagged by `duplicated()` (automation.py lines 59-60):
a row counts when its composite key already occurred earlier. -/
def duplicatedCountAux (K : List String) (seen : List String) : List Rec → Nat
  | [] => 0
  | r :: rs =>
    (if compositeKey K r ∈ seen then 1 else 0) +
      duplicatedCountAux K (compositeKey K r :: seen) rs

/-- The per-table duplicate count reported by the program. -/
def duplicatedCount (K : List String) (rows : List Rec) : Nat :=
  duplicatedCountAux K [] rows

/-- One row of the discrepancy report, with the six fields built at
automation.py lines 116-123, 135-142 and 154-161. -/
structure DiffRow where
  matchKey : String
  field : String
  migrateValue : String
  politicalValue : String
  status : String
  fileSource : String
deriving DecidableEq, Repr

/-- The column list iterated for a key present in both tables
(automation.py lines 103-107): the set union of both tables' columns, the
`_COMPOSITE_KEY` helper discarded, sorted. -/
def bothCols (t1 t2 : Table) : List String :=
  sortStr ((((t1.cols ++ ["_COMPOSITE_KEY"]) ++ (t2.cols ++ ["_COMPOSITE_KEY"])).dedup).filter
    fun c => !(c == "_COMPOSITE_KEY"))

/-- Report rows for a key present in both tables (automation.py lines
92-123): one `VALUE_MISMATCH` row per column whose normalized values
differ. -/
def bothRows (k : String) (r1 r2 : Rec) (cols : List String) : List DiffRow :=
  cols.filterMap fun c =>
    if normVal (r1.lookup c) = normVal (r2.lookup c) then none
    else some ⟨k, c, normVal (r1.lookup c), normVal (r2.lookup c), "VALUE_MISMATCH", "Both"⟩

/-- The column list iterated for a key present in one table only
(automation.py lines 131-132 and 150-151): that table's columns sorted,
skipping only the `_COMPOSITE_KEY` helper. -/
def soloCols (t : Table) : List String :=
  (sortStr (t.cols ++ ["_COMPOSITE_KEY"])).filter fun c => !(c == "_COMPOSITE_KEY")

/-- Report rows for a key present only in the first table (automation.py
lines 125-142). -/
def leftRows (k : String) (r1 : Rec) (t1 : Table) : List DiffRow :=
  (soloCols t1).map fun c =>
    ⟨k, c, normVal (r1.lookup c), "N/A - RECORD_NOT_IN_FILE", "MISSING_IN_POLITICAL",
      "MIGRATE only"⟩

/-- Report rows for a key present only in the second table (automation.py
lines 144-161). -/
def rightRows (k : String) (r2 : Rec) (t2 : Table) : List DiffRow :=
  (soloCols t2).map fun c =>
    ⟨k, c, "N/A - RECORD_NOT_IN_FILE", normVal (r2.lookup c), "MISSING_IN_MIGRATE",
      "POLITICAL only"⟩

/-- Lookup of a deduplicated row by its composite key, the model of
`df_indexed.loc[key]` (automation.py lines 76-77, 89-90). -/
def findByKey (K : List String) (rows : List Rec) (k : String) : Option Rec :=
  rows.find? fun r => compositeKey K r == k

/-- The report rows emitted for one key of the sorted key union
(automation.py lines 88-161). -/
def rowsForKey (t1 t2 : Table) (K : List String) (d1 d2 : List Rec) (k : String) :
    List DiffRow :=
  match findByKey K d1 k, findByKey K d2 k with
  | some r1, some r2 => bothRows k r1 r2 (bothCols t1 t2)
  | some r1, none => leftRows k r1 t1
  | none, some r2 => rightRows k r2 t2
  | none, none => []

/-- The diagnostic recorded when a requested key column is absent
(automation.py lines 45-52): the offending column and the column lists of
both files. -/
structure ConfigError where
  column : String
  cols1 : List String
  cols2 : List String
deriving DecidableEq, Repr

/-- The first match column missing from either table, if any
(automation.py lines 46-47). -/
def missingKeyColumn (t1 t2 : Table) (K : List String) : Option String :=
  K.find? fun c => !(t1.cols.contains c) || !(t2.cols.contains c)

/-- The sorted union of composite keys of both deduplicated tables
(automation.py lines 83-88): `sorted(set(...) | set(...))`. -/
def allKeys (K : List String) (d1 d2 : List Rec) : List String :=
  sortStr ((d1.map (compositeKey K) ++ d2.map (compositeKey K)).dedup)

/-- The comparison core of `compare_excel_files` (automation.py lines
45-161): key-column check, composite keys, deduplication, then the walk
over the sorted key union. -/
def compareTables (t1 t2 : Table) (K : List String) : Except ConfigError (List DiffRow) :=
  match missingKeyColumn t1 t2 K with
  | some c => Except.error ⟨c, t1.cols, t2.cols⟩
  | none =>
    Except.ok ((allKeys K (dropDupKeys K t1.rows) (dropDupKeys K t2.rows)).flatMap
      (rowsForKey t1 t2 K (dropDupKeys K t1.rows) (dropDupKeys K t2.rows)))

/-- The header of the report DataFrame when at least one discrepancy row
exists: the dictionary keys of automation.py lines 116-123, hardcoded. -/
def reportHeader : List String :=
  ["Match_Key", "Field", "MIGRATE_Value", "POLITICAL_Value", "Status", "File_Source"]

/-- The columns of `pd.DataFrame(mismatches)` (automation.py line 164): the
six hardcoded dictionary keys when any row exists, and no columns at all
when `mismatches` is empty. -/
def reportColumns (rows : List DiffRow) : List String :=
  match rows with
  | [] => []
  | _ => reportHeader

/-- The world of loadable files: a path either yields a table or does not
exist (`pd.read_excel` raising `FileNotFoundError`). -/
def FileSystem : Type := String → Option Table

/-- A run-aborting failure of `compare_excel_files`. -/
inductive RunError
  | fileNotFound (path : String)
  | keyColumnMissing (e : ConfigError)
deriving DecidableEq

/-- The observable outcome of one call of `compare_excel_files`: the report
written to the output path (if any), the diagnostic printed (if any), the
exception propagated to the caller (the bare `try`/`except` of automation.py
lines 34 and 221-226 means none ever is), and the Python return value
(`None` on every path: line 52 and the fall-through end). -/
structure RunResult where
  report : Option (List DiffRow)
  diagnostic : Option RunError
  raisedToCaller : Option RunError
  returnValue : Option (List DiffRow)

/-- The default composite key used when `match_columns is None`
(automation.py lines 42-43). -/
def defaultMatchColumns : List String := ["REGION", "CONSTITUENCY"]

/-- The body of the `try` block: load both files, then run the comparison
core (automation.py lines 36-161). -/
def runBody (fs : FileSystem) (f1 f2 : String) (mc : Option (List String)) :
    Except RunError (List DiffRow) :=
  match fs f1 with
  | none => Except.error (RunError.fileNotFound f1)
  | some t1 =>
    match fs f2 with
    | none => Except.error (RunError.fileNotFound f2)
    | some t2 =>
      match compareTables t1 t2 (mc.getD defaultMatchColumns) with
      | Except.error e => Except.error (RunError.keyColumnMissing e)
      | Except.ok rows => Except.ok rows

/-- The whole of `compare_excel_files` (automation.py lines 23-226): on
success the report is written, on any failure a diagnostic is printed and
no report is written; no exception escapes and the return value is always
`None`. -/
def compare_excel_files (fs : FileSystem) (f1 f2 : String) (mc : Option (List String)) :
    RunResult :=
  match runBody fs f1 f2 mc with
  | Except.ok rows => ⟨some rows, none, none, none⟩
  | Except.error e => ⟨none, some e, none, none⟩

/-! ### Order infrastructure: `strLe` agrees with the linear order on `String` -/

theorem charListLe_iff (x : List Char) : ∀ y : List Char,
    charListLe x y = true ↔ ¬ List.Lex (· < ·) y x := by
  induction x with
  | nil =>
    intro y
    constructor
    · intro _ h; cases h
    · intro _; cases y <;> rfl
  | cons c cs ih =>
    intro y
    cases y with
    | nil =>
      constructor
      · intro h; simp [charListLe] at h
      · intro h; exact absurd List.Lex.nil h
    | cons d ds =>
      by_cases hcd : c < d
      · simp only [charListLe, if_pos hcd]
        constructor
        · intro _ h
          cases h with
          | rel h2 => exact lt_asymm hcd h2
          | cons h3 => exact absurd hcd (lt_irrefl _)
        · intro _; trivial
      · by_cases hdc : d < c
        · simp only [charListLe, if_neg hcd, if_pos hdc]
          constructor
          · intro h; simp at h
          · intro h; exact absurd (List.Lex.rel hdc) h
        · have hce : c = d := le_antisymm (le_of_not_lt hdc) (le_of_not_lt hcd)
          subst hce
          simp only [charListLe, if_neg hcd, if_neg hdc]
          constructor
          · intro h hlex
            cases hlex with
            | rel h2 => exact lt_irrefl _ h2
            | cons h3 => exact (ih ds).mp h h3
          · intro h
            exact (ih ds).mpr fun h3 => h (List.Lex.cons h3)

theorem strLe_iff (a b : String) : strLe a b = true ↔ a ≤ b := by
  rw [← not_lt, String.lt_iff_toList_lt]
  exact charListLe_iff a.data b.data

theorem strLe_total (a b : String) : strLe a b = true ∨ strLe b a = true := by
  rcases le_total a b with h | h
  · exact Or.inl ((strLe_iff a b).mpr h)
  · exact Or.inr ((strLe_iff b a).mpr h)

theorem mem_insertStr {x a : String} : ∀ {l : List String},
    x ∈ insertStr a l ↔ x = a ∨ x ∈ l := by
  intro l
  induction l with
  | nil => simp [insertStr]
  | cons b l ih =>
    by_cases h : strLe a b
    · simp [insertStr, h]
    · simp only [insertStr, if_neg h, List.mem_cons, ih]
      tauto

theorem insertStr_perm (a : String) : ∀ l : List String, List.Perm (insertStr a l) (a :: l) := by
  intro l
  induction l with
  | nil => exact List.Perm.refl _
  | cons b l ih =>
    by_cases h : strLe a b
    · simp only [insertStr, if_pos h]
      exact List.Perm.refl _
    · simp only [insertStr, if_neg h]
      exact (ih.cons b).trans (List.Perm.swap a b l)

theorem sortStr_perm : ∀ l : List String, List.Perm (sortStr l) l := by
  intro l
  induction l with
  | nil => exact List.Perm.refl _
  | cons a l ih => exact (insertStr_perm a (sortStr l)).trans (ih.cons a)

theorem pairwise_insertStr {a : String} {l : List String}
    (h : l.Pairwise (· ≤ ·)) : (insertStr a l).Pairwise (· ≤ ·) := by
  induction l with
  | nil => simp [insertStr]
  | cons b l ih =>
    rw [List.pairwise_cons] at h
    obtain ⟨hb, hl⟩ := h
    by_cases hab : strLe a b
    · have hab2 : a ≤ b := (strLe_iff a b).mp hab
      simp only [insertStr, if_pos hab]
      rw [List.pairwise_cons]
      refine ⟨?_, List.pairwise_cons.mpr ⟨hb, hl⟩⟩
      intro x hx
      rcases List.mem_cons.mp hx with rfl | hx2
      · exact hab2
      · exact le_trans hab2 (hb x hx2)
    · have hba : b ≤ a := by
        rcases strLe_total a b with h1 | h1
        · exact absurd h1 hab
        · exact (strLe_iff b a).mp h1
      simp only [insertStr, if_neg hab]
      rw [List.pairwise_cons]
      refine ⟨?_, ih hl⟩
      intro x hx
      rcases mem_insertStr.mp hx with rfl | hx2
      · exact hba
      · exact hb x hx2

theorem sortStr_sorted : ∀ l : List String, (sortStr l).Pairwise (· ≤ ·) := by
  intro l
  induction l with
  | nil => exact List.Pairwise.nil
  | cons a l ih => exact pairwise_insertStr ih

theorem sortStr_nodup {l : List String} (h : l.Nodup) : (sortStr l).Nodup :=
  (sortStr_perm l).symm.nodup h

/-! ### Key union, deduplication and per-key lookup lemmas -/

theorem allKeys_nodup (K : List String) (d1 d2 : List Rec) : (allKeys K d1 d2).Nodup :=
  sortStr_nodup (List.nodup_dedup _)

theorem allKeys_sorted_lt (K : List String) (d1 d2 : List Rec) :
    (allKeys K d1 d2).Pairwise (· < ·) :=
  List.Sorted.lt_of_le (sortStr_sorted _) (allKeys_nodup K d1 d2)

theorem mem_allKeys {K : List String} {d1 d2 : List Rec} {k : String} :
    k ∈ allKeys K d1 d2 ↔
      k ∈ d1.map (compositeKey K) ∨ k ∈ d2.map (compositeKey K) := by
  unfold allKeys
  rw [(sortStr_perm _).mem_iff, List.mem_dedup, List.mem_append]

theorem findByKey_some {K : List String} {rows : List Rec} {k : String} {r : Rec}
    (h : findByKey K rows k = some r) : r ∈ rows ∧ compositeKey K r = k := by
  refine ⟨List.mem_of_find?_eq_some h, ?_⟩
  have h2 := List.find?_some h
  simpa using h2

theorem findByKey_eq_none {K : List String} {rows : List Rec} {k : String} :
    findByKey K rows k = none ↔ k ∉ rows.map (compositeKey K) := by
  unfold findByKey
  rw [List.find?_eq_none]
  constructor
  · intro h hk
    obtain ⟨r, hr, hkey⟩ := List.mem_map.mp hk
    exact h r hr (by simp [hkey])
  · intro h r hr hbeq
    exact h (List.mem_map.mpr ⟨r, hr, by simpa using hbeq⟩)

theorem findByKey_isSome {K : List String} {rows : List Rec} {k : String}
    (h : k ∈ rows.map (compositeKey K)) : ∃ r, findByKey K rows k = some r := by
  cases hf : findByKey K rows k with
  | none => exact absurd h (findByKey_eq_none.mp hf)
  | some r => exact ⟨r, rfl⟩

theorem keys_dropDupKeysAux (K : List String) : ∀ (rows : List Rec) (seen : List String)
    (k : String), k ∉ seen →
    (k ∈ (dropDupKeysAux K seen rows).map (compositeKey K) ↔
      k ∈ rows.map (compositeKey K)) := by
  intro rows
  induction rows with
  | nil => intro seen k _; simp [dropDupKeysAux]
  | cons r rs ih =>
    intro seen k hk
    by_cases hr : compositeKey K r ∈ seen
    · rw [dropDupKeysAux, if_pos hr, ih seen k hk]
      simp only [List.map_cons, List.mem_cons]
      constructor
      · exact Or.inr
      · rintro (rfl | h)
        · exact absurd hr hk
        · exact h
    · rw [dropDupKeysAux, if_neg hr]
      simp only [List.map_cons, List.mem_cons]
      by_cases hkr : k = compositeKey K r
      · simp [hkr]
      · have hk2 : k ∉ compositeKey K r :: seen := by
          intro h2
          rcases List.mem_cons.mp h2 with h3 | h3
          · exact hkr h3
          · exact hk h3
        rw [ih (compositeKey K r :: seen) k hk2]

theorem keys_dropDupKeys {K : List String} {rows : List Rec} {k : String} :
    k ∈ (dropDupKeys K rows).map (compositeKey K) ↔ k ∈ rows.map (compositeKey K) :=
  keys_dropDupKeysAux K rows [] k (List.not_mem_nil k)

theorem findByKey_dropDupKeysAux (K : List String) : ∀ (rows : List Rec)
    (seen : List String) (k : String), k ∉ seen →
    findByKey K (dropDupKeysAux K seen rows) k = findByKey K rows k := by
  intro rows
  induction rows with
  | nil => intro seen k _; rfl
  | cons r rs ih =>
    intro seen k hk
    by_cases hr : compositeKey K r ∈ seen
    · have hne : (compositeKey K r == k) = false := by
        simp only [beq_eq_false_iff_ne, ne_eq]
        intro h2
        exact hk (h2 ▸ hr)
      rw [dropDupKeysAux, if_pos hr, ih seen k hk]
      unfold findByKey
      rw [List.find?_cons, hne]
    · rw [dropDupKeysAux, if_neg hr]
      by_cases hkr : compositeKey K r = k
      · have hpos : (compositeKey K r == k) = true := by simp [hkr]
        unfold findByKey
        rw [List.find?_cons, List.find?_cons, hpos]
      · have hneg : (compositeKey K r == k) = false := by simp [hkr]
        have hk2 : k ∉ compositeKey K r :: seen := by
          intro h2
          rcases List.mem_cons.mp h2 with h3 | h3
          · exact hkr h3.symm
          · exact hk h3
        unfold findByKey
        rw [List.find?_cons, List.find?_cons, hneg]
        exact ih (compositeKey K r :: seen) k hk2

theorem findByKey_dropDupKeys (K : List String) (rows : List Rec) (k : String) :
    findByKey K (dropDupKeys K rows) k = findByKey K rows k :=
  findByKey_dropDupKeysAux K rows [] k (List.not_mem_nil k)

/-! ### Decomposition of the report into per-key blocks -/

theorem compareTables_ok {t1 t2 : Table} {K : List String} {rows : List DiffRow}
    (h : compareTables t1 t2 K = Except.ok rows) :
    missingKeyColumn t1 t2 K = none ∧
    rows = (allKeys K (dropDupKeys K t1.rows) (dropDupKeys K t2.rows)).flatMap
      (rowsForKey t1 t2 K (dropDupKeys K t1.rows) (dropDupKeys K t2.rows)) := by
  unfold compareTables at h
  cases hm : missingKeyColumn t1 t2 K <;> rw [hm] at h
  · exact ⟨rfl, (Except.ok.inj h).symm⟩
  · cases h

theorem mem_bothRows {k : String} {r1 r2 : Rec} {cols : List String} {r : DiffRow} :
    r ∈ bothRows k r1 r2 cols ↔
      ∃ c ∈ cols, ¬normVal (r1.lookup c) = normVal (r2.lookup c) ∧
        r = ⟨k, c, normVal (r1.lookup c), normVal (r2.lookup c), "VALUE_MISMATCH", "Both"⟩ := by
  unfold bothRows
  rw [List.mem_filterMap]
  constructor
  · rintro ⟨c, hc, hr⟩
    by_cases h : normVal (r1.lookup c) = normVal (r2.lookup c)
    · rw [if_pos h] at hr; cases hr
    · rw [if_neg h] at hr
      exact ⟨c, hc, h, (Option.some.inj hr).symm⟩
  · rintro ⟨c, hc, hne, rfl⟩
    exact ⟨c, hc, by rw [if_neg hne]⟩

theorem matchKey_of_mem_rowsForKey {t1 t2 : Table} {K : List String} {d1 d2 : List Rec}
    {k : String} {r : DiffRow} (h : r ∈ rowsForKey t1 t2 K d1 d2 k) : r.matchKey = k := by
  unfold rowsForKey at h
  cases h1 : findByKey K d1 k <;> cases h2 : findByKey K d2 k <;> rw [h1, h2] at h
  · cases h
  · obtain ⟨c, _, rfl⟩ := List.mem_map.mp h; rfl
  · obtain ⟨c, _, rfl⟩ := List.mem_map.mp h; rfl
  · obtain ⟨c, _, _, rfl⟩ := mem_bothRows.mp h; rfl

theorem filter_flatMap_key (f : String → List DiffRow) :
    ∀ keys : List String, keys.Nodup →
      (∀ k2 ∈ keys, ∀ r ∈ f k2, r.matchKey = k2) →
      ∀ k ∈ keys, (keys.flatMap f).filter (fun r => r.matchKey == k) = f k := by
  intro keys
  induction keys with
  | nil => intro _ _ k hk; cases hk
  | cons k0 keys ih =>
    intro hnd hmk k hk
    rw [List.nodup_cons] at hnd
    rw [List.flatMap_cons, List.filter_append]
    rcases List.mem_cons.mp hk with rfl | hk2
    · have hfk : (f k).filter (fun r => r.matchKey == k) = f k :=
        List.filter_eq_self.mpr fun r hr => by
          simp [hmk k (List.mem_cons_self _ _) r hr]
      have hrest : (keys.flatMap f).filter (fun r => r.matchKey == k) = [] := by
        rw [List.filter_eq_nil_iff]
        intro r hr
        obtain ⟨k2, hk2, hr2⟩ := List.mem_flatMap.mp hr
        have hkey := hmk k2 (List.mem_cons_of_mem _ hk2) r hr2
        simp only [hkey, beq_iff_eq]
        intro heq
        exact hnd.1 (heq ▸ hk2)
      rw [hfk, hrest, List.append_nil]
    · have hfirst : (f k0).filter (fun r => r.matchKey == k) = [] := by
        rw [List.filter_eq_nil_iff]
        intro r hr
        have hkey := hmk k0 (List.mem_cons_self _ _) r hr
        simp only [hkey, beq_iff_eq]
        intro heq
        exact hnd.1 (heq ▸ hk2)
      rw [hfirst, List.nil_append]
      exact ih hnd.2 (fun k2 hm => hmk k2 (List.mem_cons_of_mem _ hm)) k hk2

theorem rows_filter_key {t1 t2 : Table} {K : List String} {rows : List DiffRow} {k : String}
    (h : compareTables t1 t2 K = Except.ok rows)
    (hk : k ∈ allKeys K (dropDupKeys K t1.rows) (dropDupKeys K t2.rows)) :
    rows.filter (fun r => r.matchKey == k) =
      rowsForKey t1 t2 K (dropDupKeys K t1.rows) (dropDupKeys K t2.rows) k := by
  obtain ⟨-, rfl⟩ := compareTables_ok h
  exact filter_flatMap_key _ _ (allKeys_nodup K _ _)
    (fun k2 _ r hr => matchKey_of_mem_rowsForKey hr) k hk

/-! ### Column-list lemmas -/

theorem soloCols_length {t : Table} (h : "_COMPOSITE_KEY" ∉ t.cols) :
    (soloCols t).length = t.cols.length := by
  unfold soloCols
  rw [((sortStr_perm (t.cols ++ ["_COMPOSITE_KEY"])).filter _).length_eq, List.filter_append]
  have h1 : (["_COMPOSITE_KEY"] : List String).filter (fun c => !(c == "_COMPOSITE_KEY")) = [] :=
    rfl
  rw [h1, List.append_nil, List.filter_eq_self.mpr]
  intro a ha
  have h2 : a ≠ "_COMPOSITE_KEY" := fun e => h (e ▸ ha)
  simp [h2]

theorem mem_soloCols {t : Table} {c : String} :
    c ∈ soloCols t ↔ c ∈ t.cols ∧ c ≠ "_COMPOSITE_KEY" := by
  unfold soloCols
  rw [List.mem_filter, (sortStr_perm _).mem_iff, List.mem_append]
  simp only [List.mem_singleton, Bool.not_eq_eq_eq_not, Bool.not_true, beq_eq_false_iff_ne,
    ne_eq]
  constructor
  · rintro ⟨h1 | h1, h2⟩
    · exact ⟨h1, h2⟩
    · exact absurd h1 h2
  · rintro ⟨h1, h2⟩
    exact ⟨Or.inl h1, h2⟩

theorem mem_bothCols {t1 t2 : Table} {c : String} :
    c ∈ bothCols t1 t2 ↔ (c ∈ t1.cols ∨ c ∈ t2.cols) ∧ c ≠ "_COMPOSITE_KEY" := by
  unfold bothCols
  rw [(sortStr_perm _).mem_iff, List.mem_filter, List.mem_dedup]
  simp only [List.mem_append, List.mem_singleton, Bool.not_eq_eq_eq_not, Bool.not_true,
    beq_eq_false_iff_ne, ne_eq]
  constructor
  · rintro ⟨(h1 | h1) | (h1 | h1), h2⟩
    · exact ⟨Or.inl h1, h2⟩
    · exact absurd h1 h2
    · exact ⟨Or.inr h1, h2⟩
    · exact absurd h1 h2
  · rintro ⟨h1 | h1, h2⟩
    · exact ⟨Or.inl (Or.inl h1), h2⟩
    · exact ⟨Or.inr (Or.inl h1), h2⟩

theorem sorted_soloCols (t : Table) : (soloCols t).Pairwise (· ≤ ·) :=
  (sortStr_sorted _).filter _

theorem sorted_bothCols (t1 t2 : Table) : (bothCols t1 t2).Pairwise (· ≤ ·) :=
  sortStr_sorted _

/-! ### Per-branch row lemmas -/

theorem rowsForKey_eq_both {t1 t2 : Table} {K : List String} {d1 d2 : List Rec} {k : String}
    {r1 r2 : Rec} (h1 : findByKey K d1 k = some r1) (h2 : findByKey K d2 k = some r2) :
    rowsForKey t1 t2 K d1 d2 k = bothRows k r1 r2 (bothCols t1 t2) := by
  unfold rowsForKey; rw [h1, h2]

theorem rowsForKey_eq_left {t1 t2 : Table} {K : List String} {d1 d2 : List Rec} {k : String}
    {r1 : Rec} (h1 : findByKey K d1 k = some r1) (h2 : findByKey K d2 k = none) :
    rowsForKey t1 t2 K d1 d2 k = leftRows k r1 t1 := by
  unfold rowsForKey; rw [h1, h2]

theorem rowsForKey_eq_right {t1 t2 : Table} {K : List String} {d1 d2 : List Rec} {k : String}
    {r2 : Rec} (h1 : findByKey K d1 k = none) (h2 : findByKey K d2 k = some r2) :
    rowsForKey t1 t2 K d1 d2 k = rightRows k r2 t2 := by
  unfold rowsForKey; rw [h1, h2]

theorem leftRows_props {k : String} {r1 : Rec} {t1 : Table} : ∀ r ∈ leftRows k r1 t1,
    r.status = "MISSING_IN_POLITICAL" ∧ r.politicalValue = "N/A - RECORD_NOT_IN_FILE" ∧
    r.fileSource = "MIGRATE only" := by
  intro r hr
  obtain ⟨c, _, rfl⟩ := List.mem_map.mp hr
  exact ⟨rfl, rfl, rfl⟩

theorem rightRows_props {k : String} {r2 : Rec} {t2 : Table} : ∀ r ∈ rightRows k r2 t2,
    r.status = "MISSING_IN_MIGRATE" ∧ r.migrateValue = "N/A - RECORD_NOT_IN_FILE" ∧
    r.fileSource = "POLITICAL only" := by
  intro r hr
  obtain ⟨c, _, rfl⟩ := List.mem_map.mp hr
  exact ⟨rfl, rfl, rfl⟩

theorem leftRows_length {k : String} {r1 : Rec} {t1 : Table}
    (h : "_COMPOSITE_KEY" ∉ t1.cols) : (leftRows k r1 t1).length = t1.cols.length := by
  unfold leftRows
  rw [List.length_map]
  exact soloCols_length h

theorem rightRows_length {k : String} {r2 : Rec} {t2 : Table}
    (h : "_COMPOSITE_KEY" ∉ t2.cols) : (rightRows k r2 t2).length = t2.cols.length := by
  unfold rightRows
  rw [List.length_map]
  exact soloCols_length h

/-! ### Sortedness of the emitted report -/

theorem pairwise_field_rowsForKey (t1 t2 : Table) (K : List String) (d1 d2 : List Rec)
    (k : String) :
    (rowsForKey t1 t2 K d1 d2 k).Pairwise (fun a b => a.field ≤ b.field) := by
  unfold rowsForKey
  cases findByKey K d1 k <;> cases findByKey K d2 k
  · exact List.Pairwise.nil
  · exact List.pairwise_map.mpr ((sorted_soloCols t2).imp fun h => h)
  · exact List.pairwise_map.mpr ((sorted_soloCols t1).imp fun h => h)
  · unfold bothRows
    refine List.Pairwise.filterMap _ ?_ (sorted_bothCols t1 t2)
    intro a b hab x hx y hy
    rename_i r1 r2
    have hxa : x.field = a := by
      by_cases h : normVal (r1.lookup a) = normVal (r2.lookup a)
      · rw [if_pos h] at hx; cases hx
      · rw [if_neg h] at hx
        obtain rfl := Option.some.inj (Option.mem_def.mp hx).symm
        rfl
    have hyb : y.field = b := by
      by_cases h : normVal (r1.lookup b) = normVal (r2.lookup b)
      · rw [if_pos h] at hy; cases hy
      · rw [if_neg h] at hy
        obtain rfl := Option.some.inj (Option.mem_def.mp hy).symm
        rfl
    rw [hxa, hyb]
    exact hab

theorem pairwise_flatMap_sorted (f : String → List DiffRow) :
    ∀ keys : List String, keys.Pairwise (· < ·) →
      (∀ k ∈ keys, (f k).Pairwise (fun a b => a.field ≤ b.field)) →
      (∀ k ∈ keys, ∀ r ∈ f k, r.matchKey = k) →
      (keys.flatMap f).Pairwise (fun a b =>
        a.matchKey < b.matchKey ∨ (a.matchKey = b.matchKey ∧ a.field ≤ b.field)) := by
  intro keys
  induction keys with
  | nil => intro _ _ _; exact List.Pairwise.nil
  | cons k0 keys ih =>
    intro hlt hflds hkeys
    rw [List.flatMap_cons, List.pairwise_append]
    rw [List.pairwise_cons] at hlt
    refine ⟨?_, ?_, ?_⟩
    · have h1 := hflds k0 (List.mem_cons_self _ _)
      have h2 := hkeys k0 (List.mem_cons_self _ _)
      refine List.Pairwise.imp_of_mem ?_ h1
      intro a b ha hb hf
      exact Or.inr ⟨(h2 a ha).trans (h2 b hb).symm, hf⟩
    · exact ih hlt.2 (fun k hm => hflds k (List.mem_cons_of_mem _ hm))
        (fun k hm => hkeys k (List.mem_cons_of_mem _ hm))
    · intro a ha b hb
      obtain ⟨k2, hk2, hb2⟩ := List.mem_flatMap.mp hb
      have hka := hkeys k0 (List.mem_cons_self _ _) a ha
      have hkb := hkeys k2 (List.mem_cons_of_mem _ hk2) b hb2
      rw [hka, hkb]
      exact Or.inl (hlt.1 k2 hk2)

/-! ### Duplicate count equals the number of dropped rows -/

theorem dropDupKeysAux_length_le (K : List String) : ∀ (rows : List Rec) (seen : List String),
    (dropDupKeysAux K seen rows).length ≤ rows.length := by
  intro rows
  induction rows with
  | nil => intro seen; exact Nat.le_refl 0
  | cons r rs ih =>
    intro seen
    by_cases hr : compositeKey K r ∈ seen
    · rw [dropDupKeysAux, if_pos hr]
      exact Nat.le_succ_of_le (ih seen)
    · rw [dropDupKeysAux, if_neg hr]
      exact Nat.succ_le_succ (ih _)

theorem dropDupKeysAux_congr (K : List String) : ∀ (rows : List Rec) (s1 s2 : List String),
    (∀ x, x ∈ s1 ↔ x ∈ s2) → dropDupKeysAux K s1 rows = dropDupKeysAux K s2 rows := by
  intro rows
  induction rows with
  | nil => intro s1 s2 _; rfl
  | cons r rs ih =>
    intro s1 s2 hiff
    by_cases hr : compositeKey K r ∈ s1
    · rw [dropDupKeysAux, if_pos hr, dropDupKeysAux, if_pos ((hiff _).mp hr)]
      exact ih s1 s2 hiff
    · rw [dropDupKeysAux, if_neg hr, dropDupKeysAux,
        if_neg (fun h => hr ((hiff _).mpr h))]
      refine congrArg (r :: ·) (ih _ _ ?_)
      intro x
      simp only [List.mem_cons]
      exact or_congr Iff.rfl (hiff x)

theorem duplicatedCountAux_eq (K : List String) : ∀ (rows : List Rec) (seen : List String),
    duplicatedCountAux K seen rows = rows.length - (dropDupKeysAux K seen rows).length := by
  intro rows
  induction rows with
  | nil => intro seen; rfl
  | cons r rs ih =>
    intro seen
    by_cases hr : compositeKey K r ∈ seen
    · rw [duplicatedCountAux, dropDupKeysAux, if_pos hr, if_pos hr,
        ih (compositeKey K r :: seen),
        dropDupKeysAux_congr K rs (compositeKey K r :: seen) seen ?_]
      · have hle := dropDupKeysAux_length_le K rs seen
        simp only [List.length_cons]
        omega
      · intro x
        simp only [List.mem_cons]
        constructor
        · rintro (rfl | h2)
          · exact hr
          · exact h2
        · exact Or.inr
    · rw [duplicatedCountAux, dropDupKeysAux, if_neg hr, if_neg hr, ih _]
      have hle := dropDupKeysAux_length_le K rs (compositeKey K r :: seen)
      simp only [List.length_cons]
      omega

/-! ### Concrete fixtures used by witnesses and counterexamples -/

/-- Row `{ID: 1, Name: "Alice"}` of the spec's concrete scenario. -/
def recA1 : Rec := [("ID", Val.vInt 1), ("Name", Val.vStr "Alice")]

/-- Row `{ID: 2, Name: "Bob"}` of the spec's concrete scenario. -/
def recA2 : Rec := [("ID", Val.vInt 2), ("Name", Val.vStr "Bob")]

/-- Row `{ID: 1, Name: "Alicia"}` of the spec's concrete scenario. -/
def recB1 : Rec := [("ID", Val.vInt 1), ("Name", Val.vStr "Alicia")]

/-- Row `{ID: 3, Name: "Carol"}` of the spec's concrete scenario. -/
def recB2 : Rec := [("ID", Val.vInt 3), ("Name", Val.vStr "Carol")]

/-- Source A of the spec's concrete scenario. -/
def tblA : Table := ⟨["ID", "Name"], [recA1, recA2]⟩

/-- Source B of the spec's concrete scenario. -/
def tblB : Table := ⟨["ID", "Name"], [recB1, recB2]⟩

/-- The report the program actually produces on the spec's concrete scenario. -/
def scenarioRows : List DiffRow :=
  [⟨"1", "Name", "Alice", "Alicia", "VALUE_MISMATCH", "Both"⟩,
   ⟨"2", "ID", "2", "N/A - RECORD_NOT_IN_FILE", "MISSING_IN_POLITICAL", "MIGRATE only"⟩,
   ⟨"2", "Name", "Bob", "N/A - RECORD_NOT_IN_FILE", "MISSING_IN_POLITICAL", "MIGRATE only"⟩,
   ⟨"3", "ID", "N/A - RECORD_NOT_IN_FILE", "3", "MISSING_IN_MIGRATE", "POLITICAL only"⟩,
   ⟨"3", "Name", "N/A - RECORD_NOT_IN_FILE", "Carol", "MISSING_IN_MIGRATE", "POLITICAL only"⟩]

/-! ### Claim C1 -/

/-- C1 is refuted on the concrete scenario: key `"2"` is present only in
source A, whose schema has 2 columns with 1 key column, so the claim
demands exactly 1 report row for it with B-side sentinel
`"RECORD_NOT_FOUND"`; the program emits 2 rows for that key (the key
column `ID` is not excluded), and none of them carries the sentinel
`"RECORD_NOT_FOUND"` (the code writes `"N/A - RECORD_NOT_IN_FILE"`). -/
theorem C1_counterexample :
    (((compareTables tblA tblB ["ID"]).toOption.getD []).filter
        (fun r => r.matchKey == "2")).length ≠ 1 ∧
    ∀ r ∈ ((compareTables tblA tblB ["ID"]).toOption.getD []).filter
        (fun r => r.matchKey == "2"), r.politicalValue ≠ "RECORD_NOT_FOUND" := by
  constructor
  · decide
  · decide

/-- C1 (amended): for a key present only in source A the report contains
exactly `|columns(A)|` rows for that key — one per column of A's schema
including the user key columns; only the internal `_COMPOSITE_KEY` helper
is excluded — each with the left-only status `"MISSING_IN_POLITICAL"` and
B-side sentinel `"N/A - RECORD_NOT_IN_FILE"`; symmetrically for keys
present only in B. -/
theorem C1_solo_key_rows (t1 t2 : Table) (K : List String) (rows : List DiffRow) (k : String)
    (hok : compareTables t1 t2 K = Except.ok rows)
    (hck1 : "_COMPOSITE_KEY" ∉ t1.cols) (hck2 : "_COMPOSITE_KEY" ∉ t2.cols) :
    (k ∈ t1.rows.map (compositeKey K) → k ∉ t2.rows.map (compositeKey K) →
      (rows.filter (fun r => r.matchKey == k)).length = t1.cols.length ∧
      ∀ r ∈ rows.filter (fun r => r.matchKey == k),
        r.status = "MISSING_IN_POLITICAL" ∧
        r.politicalValue = "N/A - RECORD_NOT_IN_FILE" ∧ r.fileSource = "MIGRATE only") ∧
    (k ∉ t1.rows.map (compositeKey K) → k ∈ t2.rows.map (compositeKey K) →
      (rows.filter (fun r => r.matchKey == k)).length = t2.cols.length ∧
      ∀ r ∈ rows.filter (fun r => r.matchKey == k),
        r.status = "MISSING_IN_MIGRATE" ∧
        r.migrateValue = "N/A - RECORD_NOT_IN_FILE" ∧ r.fileSource = "POLITICAL only") := by
  constructor
  · intro ha hb
    have ha2 : k ∈ (dropDupKeys K t1.rows).map (compositeKey K) := keys_dropDupKeys.mpr ha
    have hb2 : k ∉ (dropDupKeys K t2.rows).map (compositeKey K) :=
      fun h => hb (keys_dropDupKeys.mp h)
    obtain ⟨r1, hf1⟩ := findByKey_isSome ha2
    have hf2 := findByKey_eq_none.mpr hb2
    have hk : k ∈ allKeys K (dropDupKeys K t1.rows) (dropDupKeys K t2.rows) :=
      mem_allKeys.mpr (Or.inl ha2)
    rw [rows_filter_key hok hk, rowsForKey_eq_left hf1 hf2]
    exact ⟨leftRows_length hck1, leftRows_props⟩
  · intro ha hb
    have ha2 : k ∉ (dropDupKeys K t1.rows).map (compositeKey K) :=
      fun h => ha (keys_dropDupKeys.mp h)
    have hb2 : k ∈ (dropDupKeys K t2.rows).map (compositeKey K) := keys_dropDupKeys.mpr hb
    have hf1 := findByKey_eq_none.mpr ha2
    obtain ⟨r2, hf2⟩ := findByKey_isSome hb2
    have hk : k ∈ allKeys K (dropDupKeys K t1.rows) (dropDupKeys K t2.rows) :=
      mem_allKeys.mpr (Or.inr hb2)
    rw [rows_filter_key hok hk, rowsForKey_eq_right hf1 hf2]
    exact ⟨rightRows_length hck2, rightRows_props⟩

/-- Witness for C1 (amended), at the concrete scenario and key `"2"`. -/
theorem C1_solo_key_rows_witness :
    (scenarioRows.filter (fun r => r.matchKey == "2")).length = tblA.cols.length ∧
    ∀ r ∈ scenarioRows.filter (fun r => r.matchKey == "2"),
      r.status = "MISSING_IN_POLITICAL" ∧
      r.politicalValue = "N/A - RECORD_NOT_IN_FILE" ∧ r.fileSource = "MIGRATE only" :=
  (C1_solo_key_rows tblA tblB ["ID"] scenarioRows "2" rfl (by decide) (by decide)).1
    (by decide) (by decide)

/-! ### Claim C2 -/

/-- C2 is refuted: on the spec's concrete scenario the program emits five
report rows, not three — the left-only key `2` and right-only key `3`
each yield an extra row for the key column `ID` itself. -/
theorem C2_counterexample :
    ((compareTables tblA tblB ["ID"]).toOption.getD []).length ≠ 3 := by
  decide

/-- C2 (amended): on inputs A = `[{ID:1,Name:"Alice"},{ID:2,Name:"Bob"}]`
and B = `[{ID:1,Name:"Alicia"},{ID:3,Name:"Carol"}]` with key `ID` the
comparison produces exactly five rows in order: (1, Name, VALUE_MISMATCH
"Alice"/"Alicia"), (2, ID) and (2, Name) left-only with B-value
`"N/A - RECORD_NOT_IN_FILE"`, and (3, ID) and (3, Name) right-only with
A-value `"N/A - RECORD_NOT_IN_FILE"`. -/
theorem C2_scenario_rows : compareTables tblA tblB ["ID"] = Except.ok scenarioRows := rfl

/-! ### Claim C3 -/

/-- A table whose key-column values contain the join separator. -/
def collideA : Table := ⟨["R", "C"], [[("R", Val.vStr "a_b"), ("C", Val.vStr "c")]]⟩

/-- A second table colliding with `collideA` on the composite key. -/
def collideB : Table := ⟨["R", "C"], [[("R", Val.vStr "a"), ("C", Val.vStr "b_c")]]⟩

/-- C3 is refuted: the code discards only the internal `_COMPOSITE_KEY`
helper, never the user key columns.  With key columns `R, C`, the rows
`(R="a_b", C="c")` and `(R="a", C="b_c")` share composite key `"a_b_c"`,
and the comparison of this shared key emits a report row whose `Field` is
the key column `R`. -/
theorem C3_counterexample :
    (⟨"a_b_c", "R", "a_b", "a", "VALUE_MISMATCH", "Both"⟩ : DiffRow) ∈
      ((compareTables collideA collideB ["R", "C"]).toOption.getD []) ∧
    "R" ∈ ["R", "C"] := by
  constructor
  · decide
  · decide

/-- C3 (amended): every emitted report row's `Field` lies in the union of
the two tables' column sets and is never the internal `_COMPOSITE_KEY`
helper; the user key columns are not excluded, neither in the shared-key
branch (which iterates the union of both schemas minus only
`_COMPOSITE_KEY`) nor in the one-side-only branches. -/
theorem C3_field_scope (t1 t2 : Table) (K : List String) (rows : List DiffRow)
    (hok : compareTables t1 t2 K = Except.ok rows) :
    ∀ r ∈ rows, (r.field ∈ t1.cols ∨ r.field ∈ t2.cols) ∧ r.field ≠ "_COMPOSITE_KEY" := by
  obtain ⟨-, rfl⟩ := compareTables_ok hok
  intro r hr
  obtain ⟨k, hk, hr2⟩ := List.mem_flatMap.mp hr
  unfold rowsForKey at hr2
  cases h1 : findByKey K (dropDupKeys K t1.rows) k <;>
    cases h2 : findByKey K (dropDupKeys K t2.rows) k <;> rw [h1, h2] at hr2
  · cases hr2
  · obtain ⟨c, hc, rfl⟩ := List.mem_map.mp hr2
    obtain ⟨hc1, hc2⟩ := mem_soloCols.mp hc
    exact ⟨Or.inr hc1, hc2⟩
  · obtain ⟨c, hc, rfl⟩ := List.mem_map.mp hr2
    obtain ⟨hc1, hc2⟩ := mem_soloCols.mp hc
    exact ⟨Or.inl hc1, hc2⟩
  · obtain ⟨c, hc, -, rfl⟩ := mem_bothRows.mp hr2
    exact mem_bothCols.mp hc

/-- Witness for C3 (amended), at the first row of the concrete scenario. -/
theorem C3_field_scope_witness :
    ((⟨"1", "Name", "Alice", "Alicia", "VALUE_MISMATCH", "Both"⟩ : DiffRow).field ∈ tblA.cols ∨
      (⟨"1", "Name", "Alice", "Alicia", "VALUE_MISMATCH", "Both"⟩ : DiffRow).field ∈ tblB.cols) ∧
    (⟨"1", "Name", "Alice", "Alicia", "VALUE_MISMATCH", "Both"⟩ : DiffRow).field ≠
      "_COMPOSITE_KEY" :=
  C3_field_scope tblA tblB ["ID"] scenarioRows rfl _ (by decide)

/-! ### Claim C4 -/

/-- C4: the comparison is a pure function of its inputs — two runs on the
same input yield the same report — and the emitted rows are sorted by the
key's string form and, within one key, by field name. -/
theorem C4_deterministic_sorted (t1 t2 : Table) (K : List String) (rows : List DiffRow)
    (hok : compareTables t1 t2 K = Except.ok rows) :
    compareTables t1 t2 K = compareTables t1 t2 K ∧
    rows.Pairwise (fun a b =>
      a.matchKey < b.matchKey ∨ (a.matchKey = b.matchKey ∧ a.field ≤ b.field)) := by
  refine ⟨rfl, ?_⟩
  obtain ⟨-, rfl⟩ := compareTables_ok hok
  exact pairwise_flatMap_sorted _ _ (allKeys_sorted_lt K _ _)
    (fun k _ => pairwise_field_rowsForKey t1 t2 K _ _ k)
    (fun k _ r hr => matchKey_of_mem_rowsForKey hr)

/-- Witness for C4, at the concrete scenario. -/
theorem C4_deterministic_sorted_witness :
    compareTables tblA tblB ["ID"] = compareTables tblA tblB ["ID"] ∧
    scenarioRows.Pairwise (fun a b =>
      a.matchKey < b.matchKey ∨ (a.matchKey = b.matchKey ∧ a.field ≤ b.field)) :=
  C4_deterministic_sorted tblA tblB ["ID"] scenarioRows rfl

/-! ### Claim C5 -/

/-- C5: within one source only the first record of each composite key
survives deduplication — the per-key lookup over the deduplicated rows
equals the first-match lookup over the original rows — the reported
duplicate count is exactly the number of discarded rows, and a source
with exactly two records sharing a key reports a duplicate count of 1
and keeps the first record. -/
theorem C5_duplicate_handling (K : List String) :
    (∀ (rows : List Rec) (k : String),
      findByKey K (dropDupKeys K rows) k = findByKey K rows k) ∧
    (∀ rows : List Rec,
      duplicatedCount K rows = rows.length - (dropDupKeys K rows).length) ∧
    (∀ r1 r2 : Rec, compositeKey K r1 = compositeKey K r2 →
      dropDupKeys K [r1, r2] = [r1] ∧ duplicatedCount K [r1, r2] = 1) := by
  refine ⟨fun rows k => findByKey_dropDupKeys K rows k,
    fun rows => duplicatedCountAux_eq K rows [], fun r1 r2 h => ?_⟩
  constructor
  · show dropDupKeysAux K [] [r1, r2] = [r1]
    rw [dropDupKeysAux, if_neg (List.not_mem_nil _), dropDupKeysAux,
      if_pos (by simp [h]), dropDupKeysAux]
  · show duplicatedCountAux K [] [r1, r2] = 1
    rw [duplicatedCountAux, if_neg (List.not_mem_nil _), duplicatedCountAux,
      if_pos (by simp [h]), duplicatedCountAux]

/-- Witness for C5: two copies of the same record under key `ID`. -/
theorem C5_duplicate_handling_witness :
    findByKey ["ID"] (dropDupKeys ["ID"] [recA1, recA2]) "1" =
      findByKey ["ID"] [recA1, recA2] "1" ∧
    dropDupKeys ["ID"] [recA1, recA1] = [recA1] ∧
    duplicatedCount ["ID"] [recA1, recA1] = 1 :=
  ⟨(C5_duplicate_handling ["ID"]).1 [recA1, recA2] "1",
   ((C5_duplicate_handling ["ID"]).2.2 recA1 recA1 rfl).1,
   ((C5_duplicate_handling ["ID"]).2.2 recA1 recA1 rfl).2⟩

/-! ### Claim C6 -/

/-- C6: the field differ sends null/NaN/absent values to `"MISSING"` and
every other value to its string form, so for two records sharing a key, a
missing cell on one side compares equal to a cell literally containing
`"MISSING"` on the other and no mismatch row is emitted for that field. -/
theorem C6_missing_normalization (t1 t2 : Table) (K : List String) (rows : List DiffRow)
    (k : String) (r1 r2 : Rec) (c : String)
    (hok : compareTables t1 t2 K = Except.ok rows)
    (hf1 : findByKey K (dropDupKeys K t1.rows) k = some r1)
    (hf2 : findByKey K (dropDupKeys K t2.rows) k = some r2)
    (hnull : r1.lookup c = none ∨ r1.lookup c = some Val.vNull)
    (hlit : r2.lookup c = some (Val.vStr "MISSING")) :
    (∀ s, normVal (some (Val.vStr s)) = s) ∧
    (∀ n, normVal (some (Val.vInt n)) = toString n) ∧
    normVal none = "MISSING" ∧ normVal (some Val.vNull) = "MISSING" ∧
    normVal (r1.lookup c) = normVal (r2.lookup c) ∧
    ∀ r ∈ rows, ¬(r.matchKey = k ∧ r.field = c) := by
  have heq : normVal (r1.lookup c) = normVal (r2.lookup c) := by
    rcases hnull with h | h <;> rw [h, hlit] <;> rfl
  refine ⟨fun s => rfl, fun n => rfl, rfl, rfl, heq, ?_⟩
  intro r hr hrc
  have hk : k ∈ allKeys K (dropDupKeys K t1.rows) (dropDupKeys K t2.rows) :=
    mem_allKeys.mpr (Or.inl (List.mem_map.mpr
      ⟨r1, (findByKey_some hf1).1, (findByKey_some hf1).2⟩))
  have hfil := rows_filter_key hok hk
  rw [rowsForKey_eq_both hf1 hf2] at hfil
  have hrmem : r ∈ rows.filter (fun r => r.matchKey == k) :=
    List.mem_filter.mpr ⟨hr, by simp [hrc.1]⟩
  rw [hfil] at hrmem
  obtain ⟨c2, -, hne, rfl⟩ := mem_bothRows.mp hrmem
  have hc2 : c2 = c := hrc.2
  rw [hc2] at hne
  exact hne heq

/-- Rows of a table whose `X` cell is null. -/
def recNullX : Rec := [("ID", Val.vInt 1), ("X", Val.vNull)]

/-- Rows of a table whose `X` cell is the literal text `MISSING`. -/
def recLitMissing : Rec := [("ID", Val.vInt 1), ("X", Val.vStr "MISSING")]

/-- Table with a null `X` cell. -/
def tblNullX : Table := ⟨["ID", "X"], [recNullX]⟩

/-- Table with a literal `"MISSING"` `X` cell. -/
def tblLitMissing : Table := ⟨["ID", "X"], [recLitMissing]⟩

/-- Witness for C6: a null cell against a literal `"MISSING"` cell. -/
theorem C6_missing_normalization_witness :
    (∀ s, normVal (some (Val.vStr s)) = s) ∧
    (∀ n, normVal (some (Val.vInt n)) = toString n) ∧
    normVal none = "MISSING" ∧ normVal (some Val.vNull) = "MISSING" ∧
    normVal (recNullX.lookup "X") = normVal (recLitMissing.lookup "X") ∧
    ∀ r ∈ ([] : List DiffRow), ¬(r.matchKey = "1" ∧ r.field = "X") :=
  C6_missing_normalization tblNullX tblLitMissing ["ID"] [] "1" recNullX recLitMissing "X"
    rfl rfl rfl (Or.inr rfl) rfl

/-! ### Claim C7 -/

/-- The file system of the zero-discrepancy run: both paths hold the same
table. -/
def fsSame : FileSystem := fun p =>
  if p = "MIGRATE.xlsx" then some tblA
  else if p = "political.xlsx" then some tblA else none

/-- C7 is refuted: a run that finds zero discrepancies builds
`pd.DataFrame([])`, which has no columns at all, so the written artifact
carries none of the six layout columns; moreover the value-column names
are the hardcoded `MIGRATE_Value`/`POLITICAL_Value`, not names derived
from the input sources. -/
theorem C7_counterexample :
    (compare_excel_files fsSame "MIGRATE.xlsx" "political.xlsx" (some ["ID"])).report =
      some [] ∧
    reportColumns [] ≠ reportHeader := by
  constructor
  · rfl
  · decide

/-- C7 (amended): whenever the run writes a report with at least one
discrepancy row, the artifact's column layout is the fixed, hardcoded
`Match_Key, Field, MIGRATE_Value, POLITICAL_Value, Status, File_Source`
(the value-column names do not identify the input sources); a
zero-discrepancy run writes an artifact with no columns. -/
theorem C7_report_layout (fs : FileSystem) (f1 f2 : String) (mc : Option (List String))
    (rows : List DiffRow)
    (h : (compare_excel_files fs f1 f2 mc).report = some rows) (hne : rows ≠ []) :
    reportColumns rows =
      ["Match_Key", "Field", "MIGRATE_Value", "POLITICAL_Value", "Status", "File_Source"] := by
  cases rows with
  | nil => exact absurd rfl hne
  | cons r rs => rfl

/-- The file system of the discrepancy-producing run. -/
def fsScenario : FileSystem := fun p =>
  if p = "MIGRATE.xlsx" then some tblA
  else if p = "political.xlsx" then some tblB else none

/-- Witness for C7 (amended), at the concrete scenario run. -/
theorem C7_report_layout_witness :
    reportColumns scenarioRows =
      ["Match_Key", "Field", "MIGRATE_Value", "POLITICAL_Value", "Status", "File_Source"] :=
  C7_report_layout fsScenario "MIGRATE.xlsx" "political.xlsx" (some ["ID"]) scenarioRows
    rfl (by decide)

/-! ### Claim C8 -/

/-- C8: if a requested key column is absent from either source, the run
aborts before any comparison work — no report is written — and the
diagnostic names an offending column together with the available columns
of both files. -/
theorem C8_key_column_check (fs : FileSystem) (f1 f2 : String) (mc : Option (List String))
    (t1 t2 : Table) (c : String)
    (h1 : fs f1 = some t1) (h2 : fs f2 = some t2)
    (hc : c ∈ mc.getD defaultMatchColumns)
    (hmiss : c ∉ t1.cols ∨ c ∉ t2.cols) :
    (compare_excel_files fs f1 f2 mc).report = none ∧
    ∃ c2, (compare_excel_files fs f1 f2 mc).diagnostic =
        some (RunError.keyColumnMissing ⟨c2, t1.cols, t2.cols⟩) ∧
      c2 ∈ mc.getD defaultMatchColumns ∧ (c2 ∉ t1.cols ∨ c2 ∉ t2.cols) := by
  have hp : (!(t1.cols.contains c) || !(t2.cols.contains c)) = true := by
    rcases hmiss with h | h <;> simp [List.elem_eq_mem, h, List.contains]
  obtain ⟨c2, hfind⟩ : ∃ c2, missingKeyColumn t1 t2 (mc.getD defaultMatchColumns) = some c2 := by
    cases hm : missingKeyColumn t1 t2 (mc.getD defaultMatchColumns) with
    | none =>
      unfold missingKeyColumn at hm
      exact absurd hp (List.find?_eq_none.mp hm c hc)
    | some c2 => exact ⟨c2, rfl⟩
  have hc2mem : c2 ∈ mc.getD defaultMatchColumns := List.mem_of_find?_eq_some hfind
  have hc2p := List.find?_some hfind
  have hc2miss : c2 ∉ t1.cols ∨ c2 ∉ t2.cols := by
    simp only [List.contains, List.elem_eq_mem, Bool.or_eq_true, Bool.not_eq_eq_eq_not,
      Bool.not_true, decide_eq_false_iff_not] at hc2p
    exact hc2p
  have hrun : runBody fs f1 f2 mc =
      Except.error (RunError.keyColumnMissing ⟨c2, t1.cols, t2.cols⟩) := by
    simp only [runBody, h1, h2, compareTables, hfind]
  refine ⟨?_, c2, ?_, hc2mem, hc2miss⟩
  · unfold compare_excel_files
    rw [hrun]
  · unfold compare_excel_files
    rw [hrun]

/-- Witness for C8: requesting the absent key column `Oops`. -/
theorem C8_key_column_check_witness :
    (compare_excel_files fsScenario "MIGRATE.xlsx" "political.xlsx" (some ["Oops"])).report =
      none ∧
    ∃ c2, (compare_excel_files fsScenario "MIGRATE.xlsx" "political.xlsx"
        (some ["Oops"])).diagnostic =
        some (RunError.keyColumnMissing ⟨c2, tblA.cols, tblB.cols⟩) ∧
      c2 ∈ (some ["Oops"] : Option (List String)).getD defaultMatchColumns ∧
      (c2 ∉ tblA.cols ∨ c2 ∉ tblB.cols) :=
  C8_key_column_check fsScenario "MIGRATE.xlsx" "political.xlsx" (some ["Oops"]) tblA tblB
    "Oops" rfl rfl (by decide) (by decide)

/-! ### Claim C10 -/

/-- C10: no exception ever escapes `compare_excel_files` — the bare
`try`/`except Exception` wraps the whole body — and the Python return
value is `None` on every path, so a caller cannot distinguish a failed
run from a successful one; in particular a nonexistent first input file
is caught, a diagnostic is recorded, and no report is written. -/
theorem C10_no_exception_escapes :
    (∀ (fs : FileSystem) (f1 f2 : String) (mc : Option (List String)),
      (compare_excel_files fs f1 f2 mc).raisedToCaller = none ∧
      (compare_excel_files fs f1 f2 mc).returnValue = none) ∧
    (∀ (fs : FileSystem) (f1 f2 : String) (mc : Option (List String)), fs f1 = none →
      (compare_excel_files fs f1 f2 mc).report = none ∧
      (compare_excel_files fs f1 f2 mc).diagnostic = some (RunError.fileNotFound f1)) := by
  constructor
  · intro fs f1 f2 mc
    unfold compare_excel_files
    cases runBody fs f1 f2 mc <;> exact ⟨rfl, rfl⟩
  · intro fs f1 f2 mc h
    have hrun : runBody fs f1 f2 mc = Except.error (RunError.fileNotFound f1) := by
      unfold runBody
      rw [h]
    unfold compare_excel_files
    rw [hrun]
    exact ⟨rfl, rfl⟩

/-- The empty file system: no path exists. -/
def fsEmpty : FileSystem := fun _ => none

/-- Witness for C10: a run against a nonexistent input file. -/
theorem C10_no_exception_escapes_witness :
    (compare_excel_files fsEmpty "MIGRATE.xlsx" "political.xlsx" none).raisedToCaller =
      none ∧
    (compare_excel_files fsEmpty "MIGRATE.xlsx" "political.xlsx" none).diagnostic =
      some (RunError.fileNotFound "MIGRATE.xlsx") :=
  ⟨(C10_no_exception_escapes.1 fsEmpty "MIGRATE.xlsx" "political.xlsx" none).1,
   (C10_no_exception_escapes.2 fsEmpty "MIGRATE.xlsx" "political.xlsx" none rfl).2⟩
